import Mathlib

/-!
Verification development for the bot-orchestration core of the `bantut`
repository (src/server.js and the variants under src/unnamed/).

The JavaScript source is shallowly embedded: asynchronous handlers become
pure functions over explicit state, the external Graph API is an oracle
parameter supplying call results, millisecond timestamps are `Int`/`Nat`,
and JavaScript truthiness of the values actually inspected by the code
(numbers: zero and NaN are falsy; strings: the empty string is falsy;
absent/null fields are falsy) is made explicit in the embedding.
-/

/-! ### External call results (src/server.js `fetchJson` and friends)

A Graph API call result is either the JavaScript value `null` (falsy, so
`!res` holds) or an object whose error-indicating fields `error`,
`error_description`, `error_message`, `error_code` may each be absent
(modelled `none`) or present.  `payload` abstracts the rest of the JSON
body, which the retry logic never inspects. -/
inductive CallRes where
  | nullRes : CallRes
  | obj (error error_description error_message : Option String)
        (error_code : Option Int) (payload : String) : CallRes
deriving DecidableEq

/-- JavaScript truthiness of an optional string field: absent (`undefined`
or JSON `null`) and the empty string are falsy. -/
def truthyS : Option String → Bool
  | none => false
  | some s => s ≠ ""

/-- JavaScript truthiness of an optional numeric field: absent and `0` are
falsy. -/
def truthyI : Option Int → Bool
  | none => false
  | some n => n ≠ 0

/-- The failure test of src/server.js line 234:
`!res || res.error || res.error_description || res.error_message || res.error_code`. -/
def isFailureRes : CallRes → Bool
  | .nullRes => true
  | .obj e ed em ec _ => truthyS e || truthyS ed || truthyS em || truthyI ec

/-! ### Retry helper (src/server.js lines 230-242)

```js
async function retry(fn, attempts=3, baseDelayMs=700) {
  let lastErr = null;
  for (let i=0;i<attempts;i++) {
    const res = await fn();
    if (!res || res.error || ...) {
      lastErr = res;
      await new Promise(r => setTimeout(r, baseDelayMs * Math.pow(2,i)));
      continue;
    }
    return res;
  }
  return lastErr;
}
```

`results i` is the value the i-th invocation of `fn` resolves to (the
operations passed to `retry` are `fetchJson` wrappers, which catch every
exception and resolve to `{error: msg}`, so `fn` never rejects and the
failure result is always returned as a value, never raised).  `fnDur i`
is the running time of the i-th invocation.  The embedding returns the
list of invocation start times (so the invocation count is its length)
together with the value returned by `retry`. -/
def retry (results : Nat → CallRes) (fnDur : Nat → Nat) (base : Nat) :
    Nat → Nat → Nat → CallRes → List Nat × CallRes
  | 0, _i, _t, lastErr => ([], lastErr)
  | k+1, i, t, lastErr =>
    if isFailureRes (results i) then
      let out := retry results fnDur base k (i+1) (t + fnDur i + base * 2 ^ i) (results i)
      (t :: out.1, out.2)
    else ([t], results i)
  termination_by k => k

/-- Run the retry helper with its source defaults initialized: attempt
counter 0, clock 0, `lastErr = null`. -/
def retryCall (results : Nat → CallRes) (fnDur : Nat → Nat)
    (attempts base : Nat) : List Nat × CallRes :=
  retry results fnDur base attempts 0 0 .nullRes

/-- C4: with `attempts = 3`, `baseDelay = 700`: an operation that fails
twice then succeeds is invoked exactly three times, the second invocation
starting at least 700 ms after the first and the third at least 1400 ms
after the second; and when all three attempts fail, the value returned is
the last failure result (the retry helper returns failures as values — its
operations resolve to error objects rather than rejecting). -/
theorem retry_three_attempts_backoff (results results2 : Nat → CallRes)
    (fnDur : Nat → Nat)
    (h0 : isFailureRes (results 0) = true)
    (h1 : isFailureRes (results 1) = true)
    (h2 : isFailureRes (results 2) = false)
    (g0 : isFailureRes (results2 0) = true)
    (g1 : isFailureRes (results2 1) = true)
    (g2 : isFailureRes (results2 2) = true) :
    (retryCall results fnDur 3 700).2 = results 2 ∧
    (retryCall results fnDur 3 700).1.length = 3 ∧
    (∃ t0 t1 t2, (retryCall results fnDur 3 700).1 = [t0, t1, t2] ∧
      t0 + 700 ≤ t1 ∧ t1 + 1400 ≤ t2) ∧
    (retryCall results2 fnDur 3 700).2 = results2 2 := by
  have e1 : retryCall results fnDur 3 700 =
      ([0, fnDur 0 + 700, fnDur 0 + 700 + fnDur 1 + 1400],
        results 2) := by
    simp [retryCall, retry, h0, h1, h2]
  have e2 : (retryCall results2 fnDur 3 700).2 = results2 2 := by
    simp [retryCall, retry, g0, g1, g2]
  refine ⟨by rw [e1], by rw [e1]; rfl, ?_, e2⟩
  exact ⟨0, fnDur 0 + 700, fnDur 0 + 700 + fnDur 1 + 1400,
    by rw [e1], by omega, by omega⟩

/-- Witness for `retry_three_attempts_backoff` at a concrete pair of result
streams (fail, fail, success and fail, fail, fail) with zero-duration
invocations. -/
theorem retry_three_attempts_backoff_witness :
    isFailureRes CallRes.nullRes = true ∧
    isFailureRes (CallRes.obj none none none none "ok") = false ∧
    (retryCall
        (fun i => if i < 2 then CallRes.nullRes else CallRes.obj none none none none "ok")
        (fun _ => 0) 3 700).2 = CallRes.obj none none none none "ok" := by
  refine ⟨by decide, by decide, ?_⟩
  have h := retry_three_attempts_backoff
    (fun i => if i < 2 then CallRes.nullRes else CallRes.obj none none none none "ok")
    (fun _ => CallRes.nullRes) (fun _ => 0)
    (by decide) (by decide) (by decide) (by decide) (by decide) (by decide)
  exact h.1

/-! ### The poll loop (src/server.js lines 374-421, `pollForTarget`)

```js
for (const p of postsResp.data) {
  const postId = p.id;
  const created = p.created_time ? Date.parse(p.created_time) : null;
  if (created && created <= bot.activatedAt) continue; // only new posts
  if (bot.processedPosts.has(postId)) continue;
  bot.processedPosts.add(postId);
  for (let i=0;i<bot.accounts.length;i++) {
    const acc = bot.accounts[i];
    const reaction = bot.meta.reactions[i % bot.meta.reactions.length];
    const reactRes = await retry(()=>graphReact(acc.token, postId, reaction), 3);
    const commentRes = await retry(()=>graphComment(acc.token, postId, bot.meta.comment || 'hi master'), 3);
    const shareRes = await retry(()=>graphShare(acc.token, postId), 3);
    const entry = { time, targetId, postId, accountId: acc.id, accountName: acc.name,
                    reactionResult: reactRes, commentResult: commentRes, shareResult: shareRes };
    fs.appendFileSync(logfile, JSON.stringify(entry) + '\n');
    await new Promise(r=>setTimeout(r, bot.meta.perAccountDelayMs || 1000));
  }
}
```

The fetch of `postsResp` is an external network call; the embedding takes
the fetched item list as input.  `created : Option Int` is the value of
`p.created_time ? Date.parse(p.created_time) : null` — `none` covers both
the absent-field case (`null`) and the unparseable case (`Date.parse`
returning `NaN`), since both are falsy and `NaN <= x` is false; a parsed
millisecond timestamp is `some c`, and JavaScript number truthiness makes
`some 0` (the Unix epoch) falsy in the `created && ...` guard. -/
structure Account where
  id : String
  name : String
  token : String
deriving DecidableEq

structure PostItem where
  id : String
  created : Option Int
deriving DecidableEq

structure BotState where
  processedPosts : List String
  activatedAt : Int
  accounts : List Account
  reactions : List String
  comment : Option String
deriving DecidableEq

/-- The guard `created && created <= bot.activatedAt` of src/server.js
line 386: skip (continue) exactly when `created` is truthy (a parsed,
nonzero timestamp) and at most `activatedAt`. -/
def skipOld (created : Option Int) (activatedAt : Int) : Bool :=
  match created with
  | none => false
  | some c => c ≠ 0 && c ≤ activatedAt

/-- The retry-final results of the three Graph operations one account
performs on one post (react, comment, share). -/
structure OpRes3 where
  react : CallRes
  comment : CallRes
  share : CallRes
deriving DecidableEq

/-- One line appended to `data/actions_<targetId>.log` (src/server.js
lines 403-415): a single audit record per account per post, carrying all
three operation results.  The wall-clock `time` field is omitted from the
embedding (no claim depends on it). -/
structure AuditEntry where
  targetId : String
  postId : String
  accountId : String
  accountName : String
  reaction : String
  reactionResult : CallRes
  commentResult : CallRes
  shareResult : CallRes
deriving DecidableEq

/-- The inner per-account loop of `pollForTarget` for one post: one audit
entry per account, reaction chosen round-robin by account index.  `env`
is the external-API oracle giving the retry-final results for a given
account id and post id. -/
def dispatchEntries (env : String → String → OpRes3) (t : String)
    (bot : BotState) (pid : String) : List AuditEntry :=
  (List.range bot.accounts.length).map (fun i =>
    let acc := bot.accounts.getD i ⟨"", "", ""⟩
    let r := env acc.id pid
    { targetId := t, postId := pid, accountId := acc.id, accountName := acc.name,
      reaction := bot.reactions.getD (i % bot.reactions.length) "",
      reactionResult := r.react, commentResult := r.comment, shareResult := r.share })

/-- Result of one `pollForTarget` body over the fetched posts: the updated
bot state, the ids dispatch was invoked for (in order), and the audit
entries appended. -/
structure PollOut where
  state : BotState
  dispatched : List String
  entries : List AuditEntry
deriving DecidableEq

/-- The `for (const p of postsResp.data)` loop of `pollForTarget`
(src/server.js lines 383-420).  Note the order mirrors the source: the
age guard first, then the dedup check, then the insertion into
`processedPosts` *before* any dispatch work for the item. -/
def pollForTarget (env : String → String → OpRes3) (t : String) :
    BotState → List PostItem → PollOut
  | bot, [] => ⟨bot, [], []⟩
  | bot, p :: rest =>
    if skipOld p.created bot.activatedAt then pollForTarget env t bot rest
    else if p.id ∈ bot.processedPosts then pollForTarget env t bot rest
    else
      let bot' : BotState := { bot with processedPosts := p.id :: bot.processedPosts }
      let out := pollForTarget env t bot' rest
      ⟨out.state, p.id :: out.dispatched, dispatchEntries env t bot' p.id ++ out.entries⟩

/-- A sequence of consecutive polls of the same Watch, each receiving one
fetched batch of items; dispatched ids and audit entries accumulate in
order. -/
def runPolls (env : String → String → OpRes3) (t : String) :
    BotState → List (List PostItem) → PollOut
  | bot, [] => ⟨bot, [], []⟩
  | bot, ps :: rest =>
    let o1 := pollForTarget env t bot ps
    let o2 := runPolls env t o1.state rest
    ⟨o2.state, o1.dispatched ++ o2.dispatched, o1.entries ++ o2.entries⟩


/-- Unfolding: a tick over no items does nothing. -/
theorem pollForTarget_nil (env : String → String → OpRes3) (t : String)
    (bot : BotState) : pollForTarget env t bot [] = ⟨bot, [], []⟩ := rfl

/-- Unfolding: an item caught by the activation-age guard is skipped. -/
theorem pollForTarget_cons_skip (env : String → String → OpRes3) (t : String)
    (bot : BotState) (p : PostItem) (rest : List PostItem)
    (hs : skipOld p.created bot.activatedAt = true) :
    pollForTarget env t bot (p :: rest) = pollForTarget env t bot rest := by
  simp [pollForTarget, hs]

/-- Unfolding: an already processed item is skipped. -/
theorem pollForTarget_cons_dup (env : String → String → OpRes3) (t : String)
    (bot : BotState) (p : PostItem) (rest : List PostItem)
    (hs : skipOld p.created bot.activatedAt = false)
    (hm : p.id ∈ bot.processedPosts) :
    pollForTarget env t bot (p :: rest) = pollForTarget env t bot rest := by
  simp [pollForTarget, hs, hm]

/-- Unfolding: a new item is recorded in `processedPosts` first and then
dispatched to every account. -/
theorem pollForTarget_cons_new (env : String → String → OpRes3) (t : String)
    (bot : BotState) (p : PostItem) (rest : List PostItem)
    (hs : skipOld p.created bot.activatedAt = false)
    (hm : p.id ∉ bot.processedPosts) :
    pollForTarget env t bot (p :: rest) =
      ⟨(pollForTarget env t { bot with processedPosts := p.id :: bot.processedPosts } rest).state,
       p.id :: (pollForTarget env t { bot with processedPosts := p.id :: bot.processedPosts } rest).dispatched,
       dispatchEntries env t { bot with processedPosts := p.id :: bot.processedPosts } p.id ++
         (pollForTarget env t { bot with processedPosts := p.id :: bot.processedPosts } rest).entries⟩ := by
  simp [pollForTarget, hs, hm]

/-- A poll tick changes neither the activation timestamp nor the account
list of the Watch (it only grows `processedPosts`). -/
theorem pollForTarget_state_const (env : String → String → OpRes3) (t : String)
    (posts : List PostItem) : ∀ bot : BotState,
    (pollForTarget env t bot posts).state.activatedAt = bot.activatedAt ∧
    (pollForTarget env t bot posts).state.accounts = bot.accounts := by
  induction posts with
  | nil => intro bot; simp [pollForTarget_nil]
  | cons p rest ih =>
    intro bot
    cases hs : skipOld p.created bot.activatedAt with
    | true => rw [pollForTarget_cons_skip env t bot p rest hs]; exact ih bot
    | false =>
      by_cases hm : p.id ∈ bot.processedPosts
      · rw [pollForTarget_cons_dup env t bot p rest hs hm]; exact ih bot
      · rw [pollForTarget_cons_new env t bot p rest hs hm]
        exact ih { bot with processedPosts := p.id :: bot.processedPosts }

/-- Membership in `processedPosts` after a poll tick: exactly the ids
dispatched during the tick together with the ids already present. -/
theorem pollForTarget_mem (env : String → String → OpRes3) (t : String)
    (posts : List PostItem) : ∀ (bot : BotState) (pid : String),
    pid ∈ (pollForTarget env t bot posts).state.processedPosts ↔
      pid ∈ (pollForTarget env t bot posts).dispatched ∨ pid ∈ bot.processedPosts := by
  induction posts with
  | nil => intro bot pid; simp [pollForTarget_nil]
  | cons p rest ih =>
    intro bot pid
    cases hs : skipOld p.created bot.activatedAt with
    | true => rw [pollForTarget_cons_skip env t bot p rest hs]; exact ih bot pid
    | false =>
      by_cases hm : p.id ∈ bot.processedPosts
      · rw [pollForTarget_cons_dup env t bot p rest hs hm]; exact ih bot pid
      · rw [pollForTarget_cons_new env t bot p rest hs hm]
        have h := ih { bot with processedPosts := p.id :: bot.processedPosts } pid
        simp only [List.mem_cons] at h ⊢
        rw [h]
        tauto

/-- Within one poll tick, no id is dispatched twice and no already
processed id is dispatched. -/
theorem pollForTarget_nodup (env : String → String → OpRes3) (t : String)
    (posts : List PostItem) : ∀ bot : BotState,
    (pollForTarget env t bot posts).dispatched.Nodup ∧
    ∀ pid ∈ bot.processedPosts, pid ∉ (pollForTarget env t bot posts).dispatched := by
  induction posts with
  | nil => intro bot; simp [pollForTarget_nil]
  | cons p rest ih =>
    intro bot
    cases hs : skipOld p.created bot.activatedAt with
    | true => rw [pollForTarget_cons_skip env t bot p rest hs]; exact ih bot
    | false =>
      by_cases hm : p.id ∈ bot.processedPosts
      · rw [pollForTarget_cons_dup env t bot p rest hs hm]; exact ih bot
      · rw [pollForTarget_cons_new env t bot p rest hs hm]
        have ih' := ih { bot with processedPosts := p.id :: bot.processedPosts }
        simp only [List.nodup_cons, List.mem_cons]
        refine ⟨⟨ih'.2 p.id (by simp), ih'.1⟩, ?_⟩
        intro pid hpid
        simp only [List.mem_cons, not_or]
        exact ⟨fun he => hm (he ▸ hpid), ih'.2 pid (by simp [hpid])⟩

/-- Every id dispatched by a poll tick comes from a fetched item that
passed the activation-age guard of line 386. -/
theorem pollForTarget_origin (env : String → String → OpRes3) (t : String)
    (posts : List PostItem) : ∀ (bot : BotState) (pid : String),
    pid ∈ (pollForTarget env t bot posts).dispatched →
    ∃ p ∈ posts, p.id = pid ∧ skipOld p.created bot.activatedAt = false := by
  induction posts with
  | nil => intro bot pid h; simp [pollForTarget_nil] at h
  | cons p rest ih =>
    intro bot pid h
    cases hs : skipOld p.created bot.activatedAt with
    | true =>
      rw [pollForTarget_cons_skip env t bot p rest hs] at h
      obtain ⟨q, hq, hqid, hqskip⟩ := ih bot pid h
      exact ⟨q, by simp [hq], hqid, hqskip⟩
    | false =>
      by_cases hm : p.id ∈ bot.processedPosts
      · rw [pollForTarget_cons_dup env t bot p rest hs hm] at h
        obtain ⟨q, hq, hqid, hqskip⟩ := ih bot pid h
        exact ⟨q, by simp [hq], hqid, hqskip⟩
      · rw [pollForTarget_cons_new env t bot p rest hs hm] at h
        simp only [List.mem_cons] at h
        rcases h with he | hmem
        · exact ⟨p, by simp, he.symm, hs⟩
        · obtain ⟨q, hq, hqid, hqskip⟩ :=
            ih { bot with processedPosts := p.id :: bot.processedPosts } pid hmem
          exact ⟨q, by simp [hq], hqid, hqskip⟩

/-- A sequence of polls changes neither the activation timestamp nor the
accounts. -/
theorem runPolls_state_const (env : String → String → OpRes3) (t : String)
    (batches : List (List PostItem)) : ∀ bot : BotState,
    (runPolls env t bot batches).state.activatedAt = bot.activatedAt ∧
    (runPolls env t bot batches).state.accounts = bot.accounts := by
  induction batches with
  | nil => intro bot; simp [runPolls]
  | cons ps rest ih =>
    intro bot
    have h1 := pollForTarget_state_const env t ps bot
    have h2 := ih (pollForTarget env t bot ps).state
    simp only [runPolls]
    exact ⟨h2.1.trans h1.1, h2.2.trans h1.2⟩

/-- Membership in `processedPosts` after a sequence of polls. -/
theorem runPolls_mem (env : String → String → OpRes3) (t : String)
    (batches : List (List PostItem)) : ∀ (bot : BotState) (pid : String),
    pid ∈ (runPolls env t bot batches).state.processedPosts ↔
      pid ∈ (runPolls env t bot batches).dispatched ∨ pid ∈ bot.processedPosts := by
  induction batches with
  | nil => intro bot pid; simp [runPolls]
  | cons ps rest ih =>
    intro bot pid
    have h1 := pollForTarget_mem env t ps bot pid
    have h2 := ih (pollForTarget env t bot ps).state pid
    simp only [runPolls, List.mem_append]
    rw [h2, h1]
    tauto

/-- Across a whole sequence of polls of one Watch, no id is dispatched
twice and no initially processed id is ever dispatched. -/
theorem runPolls_nodup (env : String → String → OpRes3) (t : String)
    (batches : List (List PostItem)) : ∀ bot : BotState,
    (runPolls env t bot batches).dispatched.Nodup ∧
    ∀ pid ∈ bot.processedPosts, pid ∉ (runPolls env t bot batches).dispatched := by
  induction batches with
  | nil => intro bot; simp [runPolls]
  | cons ps rest ih =>
    intro bot
    have h1 := pollForTarget_nodup env t ps bot
    have ih' := ih (pollForTarget env t bot ps).state
    have hmem := pollForTarget_mem env t ps bot
    simp only [runPolls, List.nodup_append, List.mem_append]
    refine ⟨⟨h1.1, ih'.1, ?_⟩, ?_⟩
    · intro pid hpid
      exact ih'.2 pid ((hmem pid).mpr (Or.inl hpid))
    · intro pid hpid
      simp only [not_or]
      exact ⟨h1.2 pid hpid, ih'.2 pid ((hmem pid).mpr (Or.inr hpid))⟩

/-- Every id dispatched across a sequence of polls comes from some fetched
item in some batch that passed the activation-age guard. -/
theorem runPolls_origin (env : String → String → OpRes3) (t : String)
    (batches : List (List PostItem)) : ∀ (bot : BotState) (pid : String),
    pid ∈ (runPolls env t bot batches).dispatched →
    ∃ ps ∈ batches, ∃ p ∈ ps, p.id = pid ∧
      skipOld p.created bot.activatedAt = false := by
  induction batches with
  | nil => intro bot pid h; simp [runPolls] at h
  | cons ps rest ih =>
    intro bot pid h
    simp only [runPolls, List.mem_append] at h
    rcases h with h | h
    · obtain ⟨p, hp, hid, hsk⟩ := pollForTarget_origin env t ps bot pid h
      exact ⟨ps, by simp, p, hp, hid, hsk⟩
    · obtain ⟨qs, hqs, q, hq, hid, hsk⟩ := ih (pollForTarget env t bot ps).state pid h
      rw [(pollForTarget_state_const env t ps bot).1] at hsk
      exact ⟨qs, by simp [hqs], q, hq, hid, hsk⟩

/-- A fixed external-API oracle whose calls all succeed, used for concrete
instances. -/
def envConst : String → String → OpRes3 :=
  fun _ _ => ⟨CallRes.obj none none none none "ok",
    CallRes.obj none none none none "ok", CallRes.obj none none none none "ok"⟩

/-- A concrete one-account Watch activated at t = 1000 ms. -/
def botCex : BotState := ⟨[], 1000, [⟨"a1", "acc1", "tok1"⟩], ["LIKE"], none⟩

/-- A concrete item whose `created_time` parses to the Unix epoch: the
millisecond timestamp 0 is falsy in JavaScript, so the guard
`created && created <= bot.activatedAt` does not fire for it. -/
def epochPost : PostItem := ⟨"P0", some 0⟩

/-- C1 counterexample: an item created exactly at the Unix epoch has
`createdAt = 0 <= activatedAt`, yet the poll dispatches it (and appends
audit entries), because `0` is falsy in the guard
`created && created <= bot.activatedAt` of src/server.js line 386. -/
theorem epoch_item_dispatched_cex :
    epochPost.created = some 0 ∧ (0 : Int) ≤ botCex.activatedAt ∧
    (pollForTarget envConst "T1" botCex [epochPost]).dispatched = ["P0"] ∧
    (pollForTarget envConst "T1" botCex [epochPost]).entries ≠ [] := by
  decide

/-- C1 (amended): for every item whose `created_time` parses to a NONZERO
timestamp at most `activatedAt`, dispatch is never invoked for that item
across any sequence of polls.  (The claim as stated fails at a timestamp
of exactly 0 — the Unix epoch — which is falsy in JavaScript; see
`epoch_item_dispatched_cex`.) -/
theorem poll_excludes_preactivation_items (env : String → String → OpRes3)
    (t : String) (bot : BotState) (batches : List (List PostItem)) (pid : String)
    (hall : ∀ ps ∈ batches, ∀ p ∈ ps, p.id = pid →
      ∃ c : Int, p.created = some c ∧ c ≠ 0 ∧ c ≤ bot.activatedAt) :
    pid ∉ (runPolls env t bot batches).dispatched := by
  intro hmem
  obtain ⟨ps, hps, p, hp, hid, hsk⟩ := runPolls_origin env t batches bot pid hmem
  obtain ⟨c, hc, hc0, hcle⟩ := hall ps hps p hp hid
  rw [hc] at hsk
  simp [skipOld, hc0, hcle] at hsk

/-- Witness for `poll_excludes_preactivation_items`: an item created at
t = 500 ms against a Watch activated at t = 1000 ms is never dispatched. -/
theorem poll_excludes_preactivation_items_witness :
    (∀ ps ∈ [[(⟨"P9", some 500⟩ : PostItem)]], ∀ p ∈ ps, p.id = "P9" →
      ∃ c : Int, p.created = some c ∧ c ≠ 0 ∧ c ≤ botCex.activatedAt) ∧
    "P9" ∉ (runPolls envConst "T1" botCex [[⟨"P9", some 500⟩]]).dispatched := by
  have hall : ∀ ps ∈ [[(⟨"P9", some 500⟩ : PostItem)]], ∀ p ∈ ps, p.id = "P9" →
      ∃ c : Int, p.created = some c ∧ c ≠ 0 ∧ c ≤ botCex.activatedAt := by
    intro ps hps p hp _
    simp only [List.mem_singleton] at hps
    subst hps
    simp only [List.mem_singleton] at hp
    subst hp
    exact ⟨500, rfl, by decide, by decide⟩
  exact ⟨hall, poll_excludes_preactivation_items envConst "T1" botCex _ "P9" hall⟩

/-- C2: over a Watch's lifetime each item id is dispatched at most once,
even across consecutive polls returning the same item (the dispatched ids
of any poll sequence are pairwise distinct and disjoint from the ids
already in `processedPosts`); every dispatched id ends up recorded in
`processedPosts`; and the id is inserted into `processedPosts` before any
dispatch output is produced, so a dispatch that stops partway (the
insertion having already happened) leaves the id recorded and later polls
skip it. -/
theorem dispatch_at_most_once (env : String → String → OpRes3) (t : String)
    (bot : BotState) (batches : List (List PostItem)) (p : PostItem) :
    (runPolls env t bot batches).dispatched.Nodup ∧
    (∀ pid, pid ∈ bot.processedPosts →
      pid ∉ (runPolls env t bot batches).dispatched) ∧
    (∀ pid, pid ∈ (runPolls env t bot batches).dispatched →
      pid ∈ (runPolls env t bot batches).state.processedPosts) ∧
    ((pollForTarget env t bot [p]).dispatched ≠ [] →
      p.id ∈ (pollForTarget env t bot [p]).state.processedPosts) := by
  refine ⟨(runPolls_nodup env t batches bot).1, (runPolls_nodup env t batches bot).2,
    ?_, ?_⟩
  · intro pid h
    exact (runPolls_mem env t batches bot pid).mpr (Or.inl h)
  · intro hne
    cases hs : skipOld p.created bot.activatedAt with
    | true =>
      rw [pollForTarget_cons_skip env t bot p [] hs, pollForTarget_nil] at hne
      simp at hne
    | false =>
      by_cases hm : p.id ∈ bot.processedPosts
      · rw [pollForTarget_cons_dup env t bot p [] hs hm, pollForTarget_nil] at hne
        simp at hne
      · rw [pollForTarget_cons_new env t bot p [] hs hm]
        simp [pollForTarget_nil]

/-- Witness for `dispatch_at_most_once`: a Watch that already processed
id `Q` never dispatches `Q` again even when a poll returns it afresh. -/
theorem dispatch_at_most_once_witness :
    ("Q" ∈ (["Q"] : List String)) ∧
    "Q" ∉ (runPolls envConst "T1" ⟨["Q"], 1000, [⟨"a1", "acc1", "tok1"⟩], ["LIKE"], none⟩
      [[⟨"Q", some 2000⟩]]).dispatched := by
  refine ⟨by decide, ?_⟩
  exact (dispatch_at_most_once envConst "T1"
    ⟨["Q"], 1000, [⟨"a1", "acc1", "tok1"⟩], ["LIKE"], none⟩
    [[⟨"Q", some 2000⟩]] ⟨"Q", some 2000⟩).2.1 "Q" (by decide)

/-- A concrete two-account Watch activated at t = 1000 ms. -/
def botTwo : BotState :=
  ⟨[], 1000, [⟨"a1", "acc1", "t1"⟩, ⟨"a2", "acc2", "t2"⟩], ["LIKE", "LOVE"], none⟩

/-- A concrete item newer than `botTwo`'s activation. -/
def newPost : PostItem := ⟨"P1", some 2000⟩

/-- C3 counterexample: dispatching one eligible item to a Watch with 2
accounts appends exactly 2 audit records to `actions_<targetId>.log` —
src/server.js lines 403-415 write ONE entry per account, carrying the
react, comment and share results together — not 2 × 3 = 6 entries. -/
theorem audit_entries_per_item_cex :
    (pollForTarget envConst "T1" botTwo [newPost]).entries.length = 2 ∧
    ¬ (pollForTarget envConst "T1" botTwo [newPost]).entries.length = 2 * 3 := by
  decide

/-- C3 (amended): dispatching one eligible item to a Watch with N accounts
appends exactly N audit entries — one per account, each entry carrying the
outcomes of all three operations (so 3N operation outcomes in total) —
and a second poll returning the same item appends zero additional
entries. -/
theorem audit_entries_per_account (env : String → String → OpRes3) (t : String)
    (bot : BotState) (p : PostItem)
    (hs : skipOld p.created bot.activatedAt = false)
    (hm : p.id ∉ bot.processedPosts) :
    (pollForTarget env t bot [p]).entries.length = bot.accounts.length ∧
    (pollForTarget env t (pollForTarget env t bot [p]).state [p]).entries.length = 0 := by
  rw [pollForTarget_cons_new env t bot p [] hs hm, pollForTarget_nil]
  constructor
  · simp [dispatchEntries]
  · have hs' : skipOld p.created
        ({ bot with processedPosts := p.id :: bot.processedPosts} : BotState).activatedAt
        = false := hs
    have hm' : p.id ∈
        ({ bot with processedPosts := p.id :: bot.processedPosts} : BotState).processedPosts := by
      simp
    rw [pollForTarget_cons_dup env t _ p [] hs' hm', pollForTarget_nil]
    rfl

/-- Witness for `audit_entries_per_account`: the two-account Watch and one
fresh item yield exactly 2 entries, and zero more on the second poll. -/
theorem audit_entries_per_account_witness :
    skipOld newPost.created botTwo.activatedAt = false ∧
    "P1" ∉ botTwo.processedPosts ∧
    (pollForTarget envConst "T1" botTwo [newPost]).entries.length = botTwo.accounts.length ∧
    (pollForTarget envConst "T1"
      (pollForTarget envConst "T1" botTwo [newPost]).state [newPost]).entries.length = 0 := by
  refine ⟨by decide, by decide, ?_, ?_⟩
  · exact (audit_entries_per_account envConst "T1" botTwo newPost (by decide) (by decide)).1
  · exact (audit_entries_per_account envConst "T1" botTwo newPost (by decide) (by decide)).2

/-- C10: an item whose `created_time` is absent or does not parse
(`created = none`, covering JavaScript `null` and `NaN`) is never excluded
by the activation-age filter: whenever its id is not yet in
`processedPosts` it is dispatched, with one audit entry per account,
regardless of how old the item actually is. -/
theorem unparsed_created_time_dispatched (env : String → String → OpRes3)
    (t : String) (bot : BotState) (p : PostItem)
    (hc : p.created = none) (hm : p.id ∉ bot.processedPosts) :
    skipOld p.created bot.activatedAt = false ∧
    (pollForTarget env t bot [p]).dispatched = [p.id] ∧
    (pollForTarget env t bot [p]).entries.length = bot.accounts.length := by
  have hs : skipOld p.created bot.activatedAt = false := by
    rw [hc]; rfl
  refine ⟨hs, ?_, ?_⟩
  · rw [pollForTarget_cons_new env t bot p [] hs hm, pollForTarget_nil]
  · exact (audit_entries_per_account env t bot p hs hm).1

/-- Witness for `unparsed_created_time_dispatched`: an item with no
parseable `created_time` is dispatched by the one-account Watch. -/
theorem unparsed_created_time_dispatched_witness :
    (⟨"PN", none⟩ : PostItem).created = none ∧
    "PN" ∉ botCex.processedPosts ∧
    (pollForTarget envConst "T1" botCex [⟨"PN", none⟩]).dispatched = ["PN"] := by
  refine ⟨rfl, by decide, ?_⟩
  exact (unparsed_created_time_dispatched envConst "T1" botCex ⟨"PN", none⟩ rfl (by decide)).2.1

/-! ### Ad-hoc single-action path (src/unnamed/part_005, `/api/react`)

```js
let userStatus = {}; // { token: { used: 0, lastUsed: timestamp, resetTime } }
const COOLDOWN_MINUTES = 15;
const DAILY_LIMIT = 10;
app.post('/api/react', async (req, res) => {
  ... // validation
  const now = Date.now();
  if (!userStatus[token]) userStatus[token] = { used: 0, lastUsed: 0, resetTime: now + 24*60*60*1000 };
  const status = userStatus[token];
  if (now > status.resetTime) { status.used=0; status.resetTime=now+24*60*60*1000; }
  if (now - status.lastUsed < COOLDOWN_MINUTES*60*1000) {
    return res.json({ success:false,error:'Cooldown active' });
  }
  if (status.used>=DAILY_LIMIT) {
    return res.json({ success:false,error:'Daily limit reached' });
  }
  try{
    ... // external call
    if(!resp.ok || data.error) return res.json({ success:false, error:data.error ? data.error.message:'Graph API error' });
    status.used+=1; status.lastUsed=now;
    return res.json({ success:true, data, used: status.used, remaining: DAILY_LIMIT - status.used });
  }catch(err){ return res.json({ success:false, error:'Server error', details:err.message }); }
});
```

The handler is embedded as a pure function from the credential's stored
rate-limit state (`none` on first use), the current time, and the external
call's outcome, to the stored state after the request together with the
JSON response.  Responses are embedded literally as key-value field lists
so that the presence or absence of a field is a provable property. -/
def COOLDOWN_MINUTES : Int := 15

def DAILY_LIMIT : Nat := 10

structure UserStatus where
  used : Nat
  lastUsed : Int
  resetTime : Int
deriving DecidableEq

/-- A JSON field value appearing in the `/api/react` responses. -/
inductive JVal where
  | b (x : Bool)
  | s (x : String)
  | n (x : Int)
deriving DecidableEq

/-- A JSON response body, embedded literally as its field list. -/
abbrev Response := List (String × JVal)

/-- Whether any field of a response carries a numeric value (such as a
remaining-seconds estimate would be). -/
def hasNumberField (r : Response) : Bool :=
  r.any (fun kv => match kv.2 with | JVal.n _ => true | _ => false)

/-- Outcome of the external Graph call made by the handler: the fetch
promise either rejects (`threw`) or resolves with a transport status
(`ok = resp.ok`), an optional error object (its message), and the rest of
the payload. -/
inductive GraphOutcome where
  | threw (msg : String)
  | returned (ok : Bool) (error : Option String) (payload : String)
deriving DecidableEq

/-- The `/api/react` handler of src/unnamed/part_005 lines 18-42, after
input validation. -/
def reactHandler (st0 : Option UserStatus) (now : Int) (call : GraphOutcome) :
    UserStatus × Response :=
  let st1 : UserStatus := match st0 with
    | none => ⟨0, 0, now + 24 * 60 * 60 * 1000⟩
    | some s => s
  let st2 : UserStatus :=
    if now > st1.resetTime then { st1 with used := 0, resetTime := now + 24 * 60 * 60 * 1000 }
    else st1
  if now - st2.lastUsed < COOLDOWN_MINUTES * 60 * 1000 then
    (st2, [("success", JVal.b false), ("error", JVal.s "Cooldown active")])
  else if st2.used ≥ DAILY_LIMIT then
    (st2, [("success", JVal.b false), ("error", JVal.s "Daily limit reached")])
  else
    match call with
    | .threw msg =>
      (st2, [("success", JVal.b false), ("error", JVal.s "Server error"), ("details", JVal.s msg)])
    | .returned ok err payload =>
      if !ok || err.isSome then
        (st2, [("success", JVal.b false),
          ("error", JVal.s (match err with | some m => m | none => "Graph API error"))])
      else
        ({ st2 with used := st2.used + 1, lastUsed := now },
         [("success", JVal.b true), ("data", JVal.s payload),
          ("used", JVal.n (st2.used + 1)),
          ("remaining", JVal.n ((DAILY_LIMIT : Int) - (st2.used + 1)))])

/-- C5: on the ad-hoc single-action path, a credential whose external call
carries an error indicator (non-success transport status or an error
field) keeps its rate-limit state: `lastUsedAt` is untouched and
`usedCount` is never incremented (it can only shrink to 0 via the
independent daily reset that precedes the call), so a failed external call
consumes neither cooldown nor quota. -/
theorem failed_call_preserves_rate_state (st0 : UserStatus) (now : Int)
    (ok : Bool) (err : Option String) (pl : String)
    (hcool : ¬ (now - st0.lastUsed < COOLDOWN_MINUTES * 60 * 1000))
    (hquota : now > st0.resetTime ∨ st0.used < DAILY_LIMIT)
    (herr : ok = false ∨ err.isSome) :
    (reactHandler (some st0) now (.returned ok err pl)).1.lastUsed = st0.lastUsed ∧
    (reactHandler (some st0) now (.returned ok err pl)).1.used ≤ st0.used ∧
    (reactHandler (some st0) now (.returned ok err pl)).2.lookup "success" =
      some (JVal.b false) := by
  have hb : (!ok || err.isSome) = true := by
    rcases herr with h | h
    · simp [h]
    · simp [h]
  by_cases hr : now > st0.resetTime
  · have hq : ¬ ((0 : Nat) ≥ DAILY_LIMIT) := by decide
    simp [reactHandler, hr, hcool, hq, hb]
  · have hq : ¬ (st0.used ≥ DAILY_LIMIT) := by
      have := hquota.resolve_left hr
      omega
    simp [reactHandler, hr, hcool, hq, hb]

/-- Witness for `failed_call_preserves_rate_state`: a failed call at a
concrete state leaves `used` and `lastUsed` untouched. -/
theorem failed_call_preserves_rate_state_witness :
    ¬ ((1700000950000 : Int) - (⟨3, 1700000000000, 1700086400000⟩ : UserStatus).lastUsed <
        COOLDOWN_MINUTES * 60 * 1000) ∧
    (⟨3, 1700000000000, 1700086400000⟩ : UserStatus).used < DAILY_LIMIT ∧
    (reactHandler (some ⟨3, 1700000000000, 1700086400000⟩) 1700000950000
      (.returned false none "")).1.lastUsed = 1700000000000 ∧
    (reactHandler (some ⟨3, 1700000000000, 1700086400000⟩) 1700000950000
      (.returned false none "")).1.used ≤ 3 := by
  refine ⟨by decide, by decide, ?_, ?_⟩
  · exact (failed_call_preserves_rate_state ⟨3, 1700000000000, 1700086400000⟩
      1700000950000 false none "" (by decide) (Or.inr (by decide)) (Or.inl rfl)).1
  · exact (failed_call_preserves_rate_state ⟨3, 1700000000000, 1700086400000⟩
      1700000950000 false none "" (by decide) (Or.inr (by decide)) (Or.inl rfl)).2.1

/-- An external call that succeeds at the transport level with no error
object. -/
def okCall : GraphOutcome := .returned true none "ok"

/-- C6 counterexample: a successful single-action request at t0, then a
second request for the same credential 1 second later.  The second is
rejected on cooldown, but its response is literally
`{success:false, error:'Cooldown active'}` — it carries NO remaining
seconds estimate (no numeric field at all), although the true remaining
cooldown is 899 seconds. -/
theorem cooldown_response_no_remaining_cex :
    (reactHandler (some (reactHandler none 1700000000000 okCall).1)
        1700000001000 okCall).2 =
      [("success", JVal.b false), ("error", JVal.s "Cooldown active")] ∧
    hasNumberField ((reactHandler (some (reactHandler none 1700000000000 okCall).1)
        1700000001000 okCall).2) = false ∧
    (COOLDOWN_MINUTES * 60 * 1000 -
      (1700000001000 - (reactHandler none 1700000000000 okCall).1.lastUsed)) / 1000 = 899 := by
  decide

/-- C6 (amended): with cooldown 15 min and daily quota 10, a request made
while `now - lastUsedAt < cooldown` is rejected with the cooldown-kind
error `'Cooldown active'`, whose response carries no remaining-seconds
value (no numeric field); and once `usedCount` has reached the quota, a
request made after the cooldown has elapsed but not past the reset time is
rejected with the quota-kind error `'Daily limit reached'`. -/
theorem cooldown_and_quota_rejection (st0 st2 : UserStatus) (now now2 : Int)
    (call call2 : GraphOutcome)
    (hcool : now - st0.lastUsed < COOLDOWN_MINUTES * 60 * 1000)
    (hcool2 : ¬ (now2 - st2.lastUsed < COOLDOWN_MINUTES * 60 * 1000))
    (hreset2 : ¬ now2 > st2.resetTime)
    (hq2 : st2.used ≥ DAILY_LIMIT) :
    (reactHandler (some st0) now call).2 =
      [("success", JVal.b false), ("error", JVal.s "Cooldown active")] ∧
    hasNumberField (reactHandler (some st0) now call).2 = false ∧
    (reactHandler (some st2) now2 call2).2 =
      [("success", JVal.b false), ("error", JVal.s "Daily limit reached")] := by
  refine ⟨?_, ?_, ?_⟩
  · by_cases hr : now > st0.resetTime
    · simp [reactHandler, hr, hcool]
    · simp [reactHandler, hr, hcool]
  · by_cases hr : now > st0.resetTime
    · simp [reactHandler, hr, hcool, hasNumberField]
    · simp [reactHandler, hr, hcool, hasNumberField]
  · simp [reactHandler, hreset2, hcool2, hq2]

/-- Witness for `cooldown_and_quota_rejection` at concrete states: a
request 1 s after use is rejected on cooldown; a request from a
quota-exhausted credential after the cooldown elapsed but before the reset
time is rejected on quota. -/
theorem cooldown_and_quota_rejection_witness :
    ((1700000001000 : Int) - (⟨1, 1700000000000, 1700086400000⟩ : UserStatus).lastUsed <
      COOLDOWN_MINUTES * 60 * 1000) ∧
    (⟨10, 1700000000000, 1700086400000⟩ : UserStatus).used ≥ DAILY_LIMIT ∧
    (reactHandler (some ⟨1, 1700000000000, 1700086400000⟩) 1700000001000 okCall).2 =
      [("success", JVal.b false), ("error", JVal.s "Cooldown active")] ∧
    (reactHandler (some ⟨10, 1700000000000, 1700086400000⟩) 1700001000000 okCall).2 =
      [("success", JVal.b false), ("error", JVal.s "Daily limit reached")] := by
  refine ⟨by decide, by decide, ?_, ?_⟩
  · exact (cooldown_and_quota_rejection ⟨1, 1700000000000, 1700086400000⟩
      ⟨10, 1700000000000, 1700086400000⟩ 1700000001000 1700001000000 okCall okCall
      (by decide) (by decide) (by decide) (by decide)).1
  · exact (cooldown_and_quota_rejection ⟨1, 1700000000000, 1700086400000⟩
      ⟨10, 1700000000000, 1700086400000⟩ 1700000001000 1700001000000 okCall okCall
      (by decide) (by decide) (by decide) (by decide)).2.2

/-! ### Watch registry and `/api/stop-bot` (src/server.js lines 354-364)

```js
app.post('/api/stop-bot', (req, res) => {
  const { targetId } = req.body;
  if (!targetId) return res.status(400).json({ success:false, error:'targetId required' });
  const bot = activeBots[targetId];
  if (!bot) return res.json({ success:false, message:'No active bot for this target' });
  if (bot.intervalId) clearInterval(bot.intervalId);
  bot.running = false;
  delete activeBots[targetId];
  persistBotsState();
  return res.json({ success:true, message:`Bot stopped for ...` });
});
```

`activeBots` is embedded as an association list with unique keys; the
handler returns the updated registry, the list of interval ids passed to
`clearInterval`, and the HTTP response (status code plus the literal
`success` / `error` / `message` fields).  The token store is not touched
by this handler at all. -/
structure WatchBot where
  intervalId : Option Nat
  running : Bool
  activatedAt : Int
  processedPosts : List String
deriving DecidableEq

abbrev BotRegistry := List (String × WatchBot)

/-- `activeBots[targetId]` lookup. -/
def lookupBot : BotRegistry → String → Option WatchBot
  | [], _ => none
  | kv :: rest, tid => if kv.1 = tid then some kv.2 else lookupBot rest tid

/-- `delete activeBots[targetId]`. -/
def eraseBot (l : BotRegistry) (tid : String) : BotRegistry :=
  l.filter (fun kv => kv.1 ≠ tid)

structure HttpResp where
  status : Nat
  success : Bool
  error : Option String
  message : Option String
deriving DecidableEq

/-- A response is an error exactly when it does not have HTTP status 200
or carries an `error` field (the §7 error kinds of the spec are always
reported through the `error` field with a non-200 status or an explicit
error message; the benign no-op reply has neither). -/
def isErrorResp (r : HttpResp) : Bool := r.status ≠ 200 || r.error.isSome

/-- The `/api/stop-bot` handler: registry after the request, interval ids
passed to `clearInterval`, and the response.  A missing or empty
`targetId` is falsy in `!targetId`, hence the 400 error. -/
def stopBot (bots : BotRegistry) (targetId : Option String) :
    BotRegistry × List Nat × HttpResp :=
  match targetId with
  | none => (bots, [], ⟨400, false, some "targetId required", none⟩)
  | some tid =>
    if tid = "" then (bots, [], ⟨400, false, some "targetId required", none⟩)
    else
      match lookupBot bots tid with
      | none => (bots, [], ⟨200, false, none, some "No active bot for this target"⟩)
      | some b =>
        (eraseBot bots tid,
         (match b.intervalId with | some iid => [iid] | none => []),
         ⟨200, true, none, some ("Bot stopped for " ++ tid)⟩)

/-- After `delete activeBots[tid]` the target is gone from the registry. -/
theorem lookupBot_eraseBot_self (l : BotRegistry) (tid : String) :
    lookupBot (eraseBot l tid) tid = none := by
  induction l with
  | nil => rfl
  | cons kv rest ih =>
    by_cases h : kv.1 = tid
    · simpa [eraseBot, List.filter_cons, h] using ih
    · simpa [eraseBot, List.filter_cons, h, lookupBot] using ih

/-- Deleting one target leaves every other target's Watch untouched. -/
theorem lookupBot_eraseBot_other (l : BotRegistry) (tid tid2 : String)
    (h : tid2 ≠ tid) :
    lookupBot (eraseBot l tid) tid2 = lookupBot l tid2 := by
  induction l with
  | nil => rfl
  | cons kv rest ih =>
    simp only [eraseBot] at ih ⊢
    by_cases hk : kv.1 = tid
    · have hk2 : ¬ kv.1 = tid2 := fun he => h (he ▸ hk)
      rw [List.filter_cons, if_neg (by simp [hk])]
      rw [show lookupBot (kv :: rest) tid2 = lookupBot rest tid2 by
        simp [lookupBot, hk2]]
      exact ih
    · rw [List.filter_cons, if_pos (by simp [hk])]
      by_cases hk2 : kv.1 = tid2
      · simp [lookupBot, hk2]
      · simp only [lookupBot, if_neg hk2]
        exact ih

/-- C8: `stop(targetId)` on a target with no active Watch is a benign
no-op — the reply is the literal `{success:false, message:'No active bot
for this target'}` with HTTP 200 and no `error` field, nothing is removed
from the registry and no schedule is cancelled; on a running Watch the
handler cancels its interval, removes exactly that Watch from the
registry, and leaves every other Watch unchanged. -/
theorem stop_bot_absent_noop (bots : BotRegistry) (tid : String) (b : WatchBot) :
    (lookupBot bots tid = none → tid ≠ "" →
      stopBot bots (some tid) =
        (bots, [], ⟨200, false, none, some "No active bot for this target"⟩) ∧
      isErrorResp (stopBot bots (some tid)).2.2 = false) ∧
    (lookupBot bots tid = some b → tid ≠ "" →
      lookupBot (stopBot bots (some tid)).1 tid = none ∧
      (∀ tid2, tid2 ≠ tid →
        lookupBot (stopBot bots (some tid)).1 tid2 = lookupBot bots tid2) ∧
      (stopBot bots (some tid)).2.1 =
        (match b.intervalId with | some iid => [iid] | none => []) ∧
      (stopBot bots (some tid)).2.2 =
        ⟨200, true, none, some ("Bot stopped for " ++ tid)⟩) := by
  constructor
  · intro hnone hne
    constructor
    · simp [stopBot, hne, hnone]
    · simp [stopBot, hne, hnone, isErrorResp]
  · intro hsome hne
    refine ⟨?_, ?_, ?_, ?_⟩
    · simp only [stopBot, if_neg hne, hsome]
      exact lookupBot_eraseBot_self bots tid
    · intro tid2 h2
      simp only [stopBot, if_neg hne, hsome]
      exact lookupBot_eraseBot_other bots tid tid2 h2
    · simp [stopBot, hne, hsome]
    · simp [stopBot, hne, hsome]

/-- Witness for `stop_bot_absent_noop`: a registry holding only target
`T1`; stopping `T2` is a benign no-op and stopping `T1` removes it and
cancels interval 7. -/
theorem stop_bot_absent_noop_witness :
    lookupBot [("T1", ⟨some 7, true, 1000, []⟩)] "T2" = none ∧
    lookupBot [("T1", ⟨some 7, true, 1000, []⟩)] "T1" = some ⟨some 7, true, 1000, []⟩ ∧
    stopBot [("T1", ⟨some 7, true, 1000, []⟩)] (some "T2") =
      ([("T1", ⟨some 7, true, 1000, []⟩)], [],
        ⟨200, false, none, some "No active bot for this target"⟩) ∧
    (stopBot [("T1", ⟨some 7, true, 1000, []⟩)] (some "T1")).2.1 = [7] := by
  refine ⟨by decide, by decide, ?_, ?_⟩
  · exact ((stop_bot_absent_noop [("T1", ⟨some 7, true, 1000, []⟩)] "T2"
      ⟨some 7, true, 1000, []⟩).1 (by decide) (by decide)).1
  · exact ((stop_bot_absent_noop [("T1", ⟨some 7, true, 1000, []⟩)] "T1"
      ⟨some 7, true, 1000, []⟩).2 (by decide) (by decide)).2.2.1

/-! ### Recurring poll scheduling (src/server.js lines 344-345)

```js
await pollForTarget(targetId).catch(e=>console.error(e));
bot.intervalId = setInterval(() => pollForTarget(targetId).catch(e=>console.error(e)), 8000);
```

`setInterval` invokes its callback at a fixed 8000 ms cadence and does NOT
wait for the previous asynchronous `pollForTarget` invocation to settle:
the callback merely starts the async function and discards the promise.
The n-th scheduled tick therefore starts at `n * 8000` ms after
activation, and a tick whose in-flight duration (dominated by awaited
network calls, during which the event loop is free to start the next
callback) is `dur n` occupies the interval `[tickStart n, tickStart n +
dur n)`.  Two consecutive ticks of the same target overlap exactly when
the next tick starts before the current one finishes. -/
def POLL_INTERVAL_MS : Nat := 8000

/-- Start time of the n-th recurring tick under `setInterval(..., 8000)`. -/
def tickStart (n : Nat) : Nat := n * POLL_INTERVAL_MS

/-- Some tick is still in flight when its successor starts. -/
def ticksOverlap (dur : Nat → Nat) : Prop :=
  ∃ n, tickStart (n + 1) < tickStart n + dur n

/-- C9 counterexample: with every tick taking 10000 ms (longer than the
8000 ms poll interval), the fire-and-forget `setInterval` schedule makes
tick 1 start while tick 0 is still in flight — the code has no
single-flight guard, so the claim fails for schedules with ticks longer
than the interval. -/
theorem overlapping_ticks_cex : ticksOverlap (fun _ => 10000) := by
  refine ⟨0, ?_⟩
  simp [tickStart, POLL_INTERVAL_MS]

/-- C9 (amended): successive poll ticks of one Watch never overlap
PROVIDED every tick completes within the 8000 ms poll interval; the
fixed-cadence `setInterval` used by the code gives no single-flight
guarantee for ticks that outlast the interval (see
`overlapping_ticks_cex`). -/
theorem ticks_disjoint_when_short (dur : Nat → Nat)
    (h : ∀ n, dur n ≤ POLL_INTERVAL_MS) : ¬ ticksOverlap dur := by
  rintro ⟨n, hn⟩
  have hd := h n
  simp only [tickStart, POLL_INTERVAL_MS, Nat.succ_mul] at hn hd
  omega

/-- Witness for `ticks_disjoint_when_short`: 5000 ms ticks never
overlap. -/
theorem ticks_disjoint_when_short_witness :
    (5000 : Nat) ≤ POLL_INTERVAL_MS ∧
    ¬ ticksOverlap (fun _ : Nat => 5000) := by
  refine ⟨by decide, ?_⟩
  exact ticks_disjoint_when_short (fun _ : Nat => 5000)
    (fun _ => by show (5000 : Nat) ≤ POLL_INTERVAL_MS; decide)

/-! ### Encrypted token store (src/server.js lines 123-144)

```js
function encrypt(text) {
  const iv = crypto.randomBytes(12);
  const cipher = crypto.createCipheriv('aes-256-gcm', ENC_KEY, iv);
  const enc = Buffer.concat([cipher.update(text, 'utf8'), cipher.final()]);
  const tag = cipher.getAuthTag();
  return Buffer.concat([iv, tag, enc]).toString('base64');
}
function decrypt(b64) {
  try {
    const buf = Buffer.from(b64, 'base64');
    const iv = buf.slice(0,12);
    const tag = buf.slice(12,28);
    const enc = buf.slice(28);
    const decipher = crypto.createDecipheriv('aes-256-gcm', ENC_KEY, iv);
    decipher.setAuthTag(tag);
    const out = Buffer.concat([decipher.update(enc), decipher.final()]);
    return out.toString('utf8');
  } catch (err) { return null; }
}
```

Byte sequences are `List Nat`; the base64 transport encoding is a
bijection on byte buffers and is abstracted away, so flipping a single
bit is flipping one bit of one byte of the framed buffer.  The AES-256-GCM
primitive lives in OpenSSL, outside this repository; it is embedded as an
abstract authenticated cipher `AEAD` whose documented contract
(`AEADCorrect`) supplies exactly the properties the claim leans on: the
cipher round-trips, the tag is 16 bytes, and any single-bit corruption of
iv, tag, or ciphertext makes decryption fail (throw, i.e. return `none`).
The repository's own code — the iv/tag/ciphertext framing and the
`slice(0,12)/slice(12,28)/slice(28)` de-framing — is what the theorems
verify. -/
abbrev Bytes := List Nat

/-- Flip bit `i % 8` of byte `i / 8` of a byte sequence. -/
def flipBit (i : Nat) (l : Bytes) : Bytes :=
  l.set (i / 8) (l.getD (i / 8) 0 ^^^ 2 ^ (i % 8))

/-- An authenticated cipher: `seal key iv plain = (ciphertext, authTag)`
(`cipher.update/final` plus `getAuthTag`), and
`opn key iv ciphertext tag` (`decipher.update/final` with `setAuthTag`),
returning `none` when authentication fails. -/
structure AEAD where
  sealAead : Bytes → Bytes → Bytes → Bytes × Bytes
  openAead : Bytes → Bytes → Bytes → Bytes → Option Bytes

/-- The documented contract of the authenticated cipher: 16-byte tag,
round-trip correctness, and rejection of any single-bit corruption of the
iv, the tag, or the ciphertext. -/
structure AEADCorrect (A : AEAD) : Prop where
  tag_len : ∀ k iv p, (A.sealAead k iv p).2.length = 16
  roundtrip : ∀ k iv p, A.openAead k iv (A.sealAead k iv p).1 (A.sealAead k iv p).2 = some p
  flip_iv : ∀ k iv p i, i < 8 * iv.length →
    A.openAead k (flipBit i iv) (A.sealAead k iv p).1 (A.sealAead k iv p).2 = none
  flip_tag : ∀ k iv p i, i < 8 * 16 →
    A.openAead k iv (A.sealAead k iv p).1 (flipBit i (A.sealAead k iv p).2) = none
  flip_ct : ∀ k iv p i, i < 8 * (A.sealAead k iv p).1.length →
    A.openAead k iv (flipBit i (A.sealAead k iv p).1) (A.sealAead k iv p).2 = none

/-- src/server.js `encrypt`: frame the fresh iv, the auth tag and the
ciphertext as `iv ‖ tag ‖ enc` (the randomly drawn 12-byte iv is passed
explicitly). -/
def encrypt (A : AEAD) (key iv text : Bytes) : Bytes :=
  iv ++ ((A.sealAead key iv text).2 ++ (A.sealAead key iv text).1)

/-- src/server.js `decrypt`: de-frame `slice(0,12)`, `slice(12,28)`,
`slice(28)` and open; any authentication failure is caught and becomes
`null`. -/
def decrypt (A : AEAD) (key : Bytes) (buf : Bytes) : Option Bytes :=
  A.openAead key (buf.take 12) (buf.drop 28) ((buf.drop 12).take 16)

/-- The three `slice` de-framing operations of `decrypt` recover the three
framed components. -/
theorem frame_slices (iv tag ct : Bytes) (hiv : iv.length = 12)
    (htag : tag.length = 16) :
    (iv ++ (tag ++ ct)).take 12 = iv ∧
    ((iv ++ (tag ++ ct)).drop 12).take 16 = tag ∧
    (iv ++ (tag ++ ct)).drop 28 = ct := by
  have hd12 : (iv ++ (tag ++ ct)).drop 12 = tag ++ ct := by
    rw [← hiv]; exact List.drop_left _ _
  refine ⟨?_, ?_, ?_⟩
  · rw [← hiv]; exact List.take_left _ _
  · rw [hd12, ← htag]; exact List.take_left _ _
  · have : (28 : Nat) = 12 + 16 := by norm_num
    rw [this, ← List.drop_drop, hd12, ← htag]
    exact List.drop_left _ _

/-- Flipping a bit does not change the length. -/
theorem flipBit_length (i : Nat) (l : Bytes) : (flipBit i l).length = l.length := by
  simp [flipBit]

/-- A flip inside the first component of an append stays there. -/
theorem flipBit_append_left (i : Nat) (l₁ l₂ : Bytes) (h : i < 8 * l₁.length) :
    flipBit i (l₁ ++ l₂) = flipBit i l₁ ++ l₂ := by
  have hj : i / 8 < l₁.length := by omega
  rw [flipBit, flipBit, List.getD_append _ _ _ _ hj, List.set_append_left _ _ hj]

/-- A flip past the first component of an append lands in the second. -/
theorem flipBit_append_right (i : Nat) (l₁ l₂ : Bytes) (h : 8 * l₁.length ≤ i) :
    flipBit i (l₁ ++ l₂) = l₁ ++ flipBit (i - 8 * l₁.length) l₂ := by
  have hj : l₁.length ≤ i / 8 := by omega
  rw [flipBit, flipBit, List.getD_append_right _ _ _ _ hj, List.set_append_right _ _ hj]
  have e1 : (i - 8 * l₁.length) / 8 = i / 8 - l₁.length := by omega
  have e2 : (i - 8 * l₁.length) % 8 = i % 8 := by omega
  rw [e1, e2]

set_option maxRecDepth 4000 in
/-- C7: under any authenticated cipher satisfying its documented contract,
the repository's `encrypt`/`decrypt` pair round-trips every secret of
length at least 10 exactly, and decrypting the framed ciphertext with any
single bit flipped — whether the flip lands in the iv, the auth tag, or
the ciphertext body — returns the decryption-failure signal (`null`),
never a wrong plaintext. -/
theorem encrypt_roundtrip_and_tamper_detect (A : AEAD) (hA : AEADCorrect A)
    (key iv text : Bytes) (hiv : iv.length = 12) (hlen : 10 ≤ text.length) :
    decrypt A key (encrypt A key iv text) = some text ∧
    ∀ i, i < 8 * (encrypt A key iv text).length →
      decrypt A key (flipBit i (encrypt A key iv text)) = none := by
  obtain ⟨ct, tag, hseal⟩ : ∃ ct tag, A.sealAead key iv text = (ct, tag) := ⟨_, _, rfl⟩
  have htag : tag.length = 16 := by
    have := hA.tag_len key iv text
    rwa [hseal] at this
  have henc : encrypt A key iv text = iv ++ (tag ++ ct) := by
    rw [encrypt, hseal]
  constructor
  · have hsl := frame_slices iv tag ct hiv htag
    rw [henc, decrypt, hsl.1, hsl.2.1, hsl.2.2]
    have := hA.roundtrip key iv text
    rwa [hseal] at this
  · intro i hi
    have hflen : (encrypt A key iv text).length = 28 + ct.length := by
      rw [henc]; simp [hiv, htag]; omega
    rw [hflen] at hi
    rw [henc]
    by_cases h1 : i < 96
    · have e1 : flipBit i (iv ++ (tag ++ ct)) = flipBit i iv ++ (tag ++ ct) :=
        flipBit_append_left i iv (tag ++ ct) (by omega)
      have hiv' : (flipBit i iv).length = 12 := by rw [flipBit_length, hiv]
      have hsl := frame_slices (flipBit i iv) tag ct hiv' htag
      rw [e1, decrypt, hsl.1, hsl.2.1, hsl.2.2]
      have := hA.flip_iv key iv text i (by rw [hiv]; omega)
      rwa [hseal] at this
    · have e1 : flipBit i (iv ++ (tag ++ ct)) = iv ++ flipBit (i - 96) (tag ++ ct) := by
        have := flipBit_append_right i iv (tag ++ ct) (by rw [hiv]; omega)
        rw [hiv] at this
        norm_num at this
        exact this
      by_cases h2 : i < 224
      · have e2 : flipBit (i - 96) (tag ++ ct) = flipBit (i - 96) tag ++ ct :=
          flipBit_append_left _ tag ct (by rw [htag]; omega)
        have htag' : (flipBit (i - 96) tag).length = 16 := by rw [flipBit_length, htag]
        have hsl := frame_slices iv (flipBit (i - 96) tag) ct hiv htag'
        rw [e1, e2, decrypt, hsl.1, hsl.2.1, hsl.2.2]
        have := hA.flip_tag key iv text (i - 96) (by omega)
        rwa [hseal] at this
      · have e2 : flipBit (i - 96) (tag ++ ct) = tag ++ flipBit (i - 224) ct := by
          have := flipBit_append_right (i - 96) tag ct (by rw [htag]; omega)
          rw [htag] at this
          norm_num at this
          have e3 : i - 96 - 128 = i - 224 := by omega
          rwa [e3] at this
        have hsl := frame_slices iv tag (flipBit (i - 224) ct) hiv htag
        rw [e1, e2, decrypt, hsl.1, hsl.2.1, hsl.2.2]
        have hct : (A.sealAead key iv text).1 = ct := by rw [hseal]
        have := hA.flip_ct key iv text (i - 224) (by rw [hct]; omega)
        rwa [hseal] at this

/-- Sum of the bytes of a sequence; the toy cipher's checksum. -/
def byteSum : Bytes → Nat
  | [] => 0
  | b :: rest => b + byteSum rest

/-- The toy cipher's 16-byte tag: checksums of ciphertext and iv padded
with zeros.  Any single-bit flip in iv or ciphertext changes the matching
checksum, and any flip in the tag makes it differ from the recomputed
one. -/
def toyTag (iv ct : Bytes) : Bytes :=
  byteSum ct :: byteSum iv :: List.replicate 14 0

/-- An executable cipher satisfying `AEADCorrect`, used to witness the
satisfiability of the contract. -/
def toyAead : AEAD where
  sealAead := fun _ iv p => (p, toyTag iv p)
  openAead := fun _ iv ct tag => if tag = toyTag iv ct then some ct else none

/-- Xor with a nonzero mask changes a number. -/
theorem xor_pow_ne (c m : Nat) (hm : m ≠ 0) : c ^^^ m ≠ c := by
  intro h
  have h2 : c ^^^ (c ^^^ m) = c ^^^ c := by rw [h]
  rw [Nat.xor_self, ← Nat.xor_assoc, Nat.xor_self, Nat.zero_xor] at h2
  exact hm h2

/-- Replacing one byte shifts the byte sum by the difference. -/
theorem byteSum_set (l : Bytes) : ∀ j v : Nat, j < l.length →
    byteSum (l.set j v) + l.getD j 0 = byteSum l + v := by
  induction l with
  | nil => intro j v h; simp at h
  | cons b rest ih =>
    intro j v h
    cases j with
    | zero => simp [byteSum]; omega
    | succ j' =>
      have hj : j' < rest.length := by simpa using h
      have hrec := ih j' v hj
      show byteSum (b :: rest.set j' v) + rest.getD j' 0 = byteSum (b :: rest) + v
      simp only [byteSum]
      omega

/-- Flipping a bit in range changes the byte sum. -/
theorem byteSum_flipBit_ne (i : Nat) (l : Bytes) (h : i < 8 * l.length) :
    byteSum (flipBit i l) ≠ byteSum l := by
  have hj : i / 8 < l.length := by omega
  have hs := byteSum_set l (i / 8) (l.getD (i / 8) 0 ^^^ 2 ^ (i % 8)) hj
  have hne : l.getD (i / 8) 0 ^^^ 2 ^ (i % 8) ≠ l.getD (i / 8) 0 :=
    xor_pow_ne _ _ (Nat.pos_iff_ne_zero.mp (Nat.pos_pow_of_pos _ (by norm_num)))
  intro heq
  rw [flipBit] at heq
  omega

/-- Flipping a bit in range changes the sequence. -/
theorem flipBit_ne (i : Nat) (l : Bytes) (h : i < 8 * l.length) :
    flipBit i l ≠ l :=
  fun he => byteSum_flipBit_ne i l h (congrArg byteSum he)

/-- The toy tag is 16 bytes. -/
theorem toyTag_length (iv ct : Bytes) : (toyTag iv ct).length = 16 := by
  simp [toyTag]

/-- The toy cipher satisfies the authenticated-cipher contract. -/
theorem toyAead_correct : AEADCorrect toyAead := by
  refine ⟨?_, ?_, ?_, ?_, ?_⟩
  · intro k iv p
    simpa [toyAead] using toyTag_length iv p
  · intro k iv p
    simp [toyAead]
  · intro k iv p i hi
    simp only [toyAead]
    rw [if_neg]
    intro h
    have h2 := congrArg (fun l => l.getD 1 0) h
    simp only [toyTag, List.getD_cons_succ, List.getD_cons_zero] at h2
    exact byteSum_flipBit_ne i iv hi h2.symm
  · intro k iv p i hi
    simp only [toyAead]
    rw [if_neg]
    have hlen : i < 8 * (toyTag iv p).length := by
      rw [toyTag_length]; omega
    exact flipBit_ne i (toyTag iv p) hlen
  · intro k iv p i hi
    simp only [toyAead] at hi ⊢
    rw [if_neg]
    intro h
    have h2 := congrArg (fun l => l.getD 0 0) h
    simp only [toyTag, List.getD_cons_zero] at h2
    exact byteSum_flipBit_ne i p hi h2.symm

/-- Witness for `encrypt_roundtrip_and_tamper_detect`: a 10-byte secret
under the toy cipher round-trips, and flipping bit 0 of the framed
ciphertext makes decryption return the failure signal. -/
theorem encrypt_roundtrip_and_tamper_detect_witness :
    (List.replicate 12 0 : Bytes).length = 12 ∧
    10 ≤ ([1, 2, 3, 4, 5, 6, 7, 8, 9, 10] : Bytes).length ∧
    decrypt toyAead []
      (encrypt toyAead [] (List.replicate 12 0) [1, 2, 3, 4, 5, 6, 7, 8, 9, 10]) =
      some [1, 2, 3, 4, 5, 6, 7, 8, 9, 10] ∧
    decrypt toyAead []
      (flipBit 0 (encrypt toyAead [] (List.replicate 12 0) [1, 2, 3, 4, 5, 6, 7, 8, 9, 10])) =
      none := by
  refine ⟨by decide, by decide, ?_, ?_⟩
  · exact (encrypt_roundtrip_and_tamper_detect toyAead toyAead_correct []
      (List.replicate 12 0) [1, 2, 3, 4, 5, 6, 7, 8, 9, 10] (by decide) (by decide)).1
  · exact (encrypt_roundtrip_and_tamper_detect toyAead toyAead_correct []
      (List.replicate 12 0) [1, 2, 3, 4, 5, 6, 7, 8, 9, 10] (by decide) (by decide)).2
      0 (by decide)
